import Mathlib

/-!
Shallow embedding of the Interview Session Engine of this repository:
answer intake (`response_router.submit_answer`), question flow
(`question_router.get_current_question`), question-list resolution
(`utils/interview_utils.get_questions_list`), the real-time attach handler
(`sockets/interview_socket.start_interview`), and the audio pipeline
(`services/stt_service.STTService.transcribe_session`,
`utils/audio_utils.merge_chunks`).

Modelling conventions:
- A question entry is modelled by its extracted text (`Question := String`);
  the uuid assignment inside `normalize_question` is abstracted (ids are
  fresh random values and are never read by the logic verified here).
- Python `None` / falsy-vs-truthy distinctions are modelled with `Option`
  (`none` = absent / `None` / empty), and the empty string models a falsy
  question entry.
- Network collaborators (LLM generation, scoring, STT, audio conversion)
  are parameters of the embedded functions: a `CollabResult` value records
  whether the awaited call raised, returned a falsy value, or returned a
  payload.  Database commit/refresh, timestamps, durations, logging and the
  advisory TTS enrichment are effect-free from the point of view of the
  verified control flow and are abstracted.
-/

/-- A question entry, modelled by its text. -/
abbrev Question := String

/-- Per-answer analysis payload (opaque to the verified logic). -/
abbrev AnalysisData := String

/-- One entry of a response's qa_history.  `analysis = none` models the
empty analysis dict `{}`. -/
structure QAPair where
  question : String
  answer : String
  analysis : Option AnalysisData
deriving DecidableEq, Repr

/-- The aggregate end-of-interview analysis; only the value stored under
the overall_score key is read by the embedded logic (absent key modelled
by `none`, read back with default 0). -/
structure FinalAnalysis where
  overall_score : Option Int
deriving DecidableEq, Repr

/-- Candidate outcome status values accepted by the routers. -/
inductive Status where
  | selected
  | potential
  | not_selected
  | shortlisted
  | rejected
  | no_status
deriving DecidableEq, Repr

/-- Result of awaiting a collaborator call: the call raised, or returned a
value that may itself be falsy (`ret none` = `None` / `{}` / empty). -/
inductive CollabResult (α : Type) where
  | raises
  | ret (val : Option α)
deriving DecidableEq, Repr

/-- Shape of a JSON question field (`llm_generated_questions` or
`manual_questions`): SQL NULL, a JSON list, a JSON dict whose optional
questions key holds a list, or some other JSON value. -/
inductive QField where
  | jnull
  | jlist (qs : List Question)
  | jdict (qs : Option (List Question))
  | jother
deriving DecidableEq, Repr

/-- The fields of an Interview record read by the embedded handlers. -/
structure Interview where
  question_mode : String
  question_count : Option Int
  llm_generated_questions : QField
  manual_questions : QField
  context : Bool
  auto_question_generate : Bool
deriving DecidableEq, Repr

/-- The fields of a Response record read and written by the embedded
handlers.  `status = none` models both an absent attribute and a stored
NULL / empty string (all falsy in the source's checks). -/
structure Response where
  qa_history : List QAPair
  current_question_index : Nat
  is_completed : Bool
  status : Option Status
  status_source : Option String
  overall_analysis : Option FinalAnalysis
deriving DecidableEq, Repr

namespace InterviewUtils

/-- utils/interview_utils.get_questions_list: sequential duck-typed checks,
preferring a truthy llm_generated_questions collection, then
manual_questions, then the empty list. -/
def get_questions_list (interview : Interview) : List Question :=
  match interview.llm_generated_questions with
  | .jlist qs =>
    if qs ≠ [] then qs else manual_fallback interview
  | .jdict (some qs) =>
    if qs ≠ [] then qs else manual_fallback interview
  | _ => manual_fallback interview
where
  /-- The manual_questions checks at the bottom of get_questions_list. -/
  manual_fallback (interview : Interview) : List Question :=
    match interview.manual_questions with
    | .jlist qs => qs
    | .jdict (some qs) => qs
    | .jdict none => []
    | _ => []

/-- utils/interview_utils.question_text on our text-projected questions. -/
def question_text (q : Question) : String := q

end InterviewUtils

namespace ResponseRouter

/-- The fields of the submit-answer JSON reply that the verified logic
produces (the echoed analysis payloads are omitted as advisory). -/
structure SubmitResult where
  ok : Bool
  complete : Bool
  question_number : Nat
  total_questions : Nat
  questions_answered : Nat
deriving DecidableEq, Repr

/-- The total_questions computation of submit_answer: in dynamic mode a
missing or non-positive question_count collapses to 0, otherwise the
configured count; in predefined mode the length of the resolved list. -/
def total_questions (interview : Interview) : Nat :=
  if interview.question_mode = "dynamic" then
    match interview.question_count with
    | none => 0
    | some n => if n ≤ 0 then 0 else n.toNat
  else
    (InterviewUtils.get_questions_list interview).length

/-- The threshold ladder shared by submit_answer and end_interview that
derives a categorical status from an overall score. -/
def derive_status (score : Int) : Status :=
  if score ≥ 80 then .selected
  else if score ≥ 60 then .potential
  else if score < 40 then .not_selected
  else .potential

/-- The guard `not hasattr or not response.status or status == "no_status"`:
true when no (truthy) status was previously stored. -/
def status_unset (st : Option Status) : Bool :=
  match st with
  | none => true
  | some .no_status => true
  | some _ => false

/-- In-place update of the analysis field of the last history entry,
modelling `updated_qa_history[-1]["analysis"] = analysis or` the empty
dict (`a = none` models a falsy scoring result). -/
def set_last_analysis (hist : List QAPair) (a : Option AnalysisData) : List QAPair :=
  match hist with
  | [] => []
  | [p] => [{ p with analysis := a }]
  | p :: q :: rest => p :: set_last_analysis (q :: rest) a

/-- routers/response_router.submit_answer on an already-fetched interview
and response.  `analyzeRes` is the awaited llm_service.analyze_response
call, `finalRes` the awaited llm_service.generate_final_analysis call;
timestamps, durations, logging and the commit machinery are abstracted. -/
def submit_answer (interview : Interview) (response : Response)
    (question transcript : String)
    (analyzeRes : CollabResult AnalysisData)
    (finalRes : CollabResult FinalAnalysis) :
    Response × SubmitResult :=
  let qa_pair : QAPair := { question := question, answer := transcript, analysis := none }
  let response := { response with
    qa_history := response.qa_history ++ [qa_pair],
    current_question_index := response.current_question_index + 1 }
  let response :=
    if interview.context then
      match analyzeRes with
      | .raises => response
      | .ret a => { response with qa_history := set_last_analysis response.qa_history a }
    else response
  let total := total_questions interview
  let is_complete : Bool := decide (total ≤ response.current_question_index ∧ 0 < total)
  let response :=
    if is_complete then
      let response := { response with is_completed := true }
      if interview.context then
        match finalRes with
        | .raises => response
        | .ret fa =>
          let response := { response with overall_analysis := fa }
          match fa with
          | some f =>
            if status_unset response.status then
              { response with
                status := some (derive_status (f.overall_score.getD 0)),
                status_source := some "auto" }
            else response
          | none => response
      else response
    else response
  (response,
   { ok := true
     complete := is_complete
     question_number := response.current_question_index
     total_questions := total
     questions_answered := response.qa_history.length })

end ResponseRouter

namespace QuestionRouter

/-- Awaited result of llm_service._generate_dynamic_question for the
opening question: the call raised, returned a falsy non-list, returned a
list (the source takes its first element; an empty list is falsy and is
skipped), or returned a single question object. -/
inductive GenFirst where
  | raises
  | retNone
  | retList (qs : List Question)
  | retSingle (q : Question)
deriving DecidableEq, Repr

/-- Awaited result of llm_service.generate_next_dynamic_question for a
follow-up question: raised, falsy, a dict carrying a truthy error key, or
a usable question. -/
inductive GenNext where
  | raises
  | falsy
  | errorResult
  | ok (q : Question)
deriving DecidableEq, Repr

/-- Outcome of get_current_question: the completion reply, a served
question (with 1-based number and the displayed total), a handled error
reply, or an unhandled exception (dynamic mode with a NULL
question_count makes the index comparison raise). -/
inductive QResult where
  | complete
  | question (q : Question) (question_number : Nat) (total : Int)
  | error
  | fatal
deriving DecidableEq, Repr

/-- normalize_question projected onto question text: the uuid id
assignment and dict-key normalization do not change the extracted text. -/
def normalize_question (q : Question) : Question := q

/-- The questions list that survives the duck-typed reset of
llm_generated_questions to a dict before a dynamic append: only an
existing dict's questions list is kept, every other shape is reset to
the empty list. -/
def existing_questions (f : QField) : List Question :=
  match f with
  | .jdict (some qs) => qs
  | _ => []

/-- Appending one generated question to llm_generated_questions (the
field is first coerced to a dict with a questions list, then extended). -/
def append_generated (f : QField) (q : Question) : QField :=
  .jdict (some (existing_questions f ++ [q]))

/-- The shared tail of get_current_question: out-of-range index is a
handled error, a falsy entry at the index is a handled error, otherwise
the entry is served. -/
def serve_tail (questions : List Question) (idx : Nat) (total_display : Int) : QResult :=
  if h : idx < questions.length then
    let current_question := questions.get ⟨idx, h⟩
    if current_question = "" then .error
    else .question current_question (idx + 1) total_display
  else .error

/-- routers/question_router.get_current_question on an already-fetched
interview and response.  Returns the reply, the possibly-extended
interview, the (never-modified) response, and whether a dynamic-mode
generation collaborator was invoked.  `genPredef` is the awaited
_generate_predefined_questions call of the lazy predefined
materialization branch (its generated description is advisory and
abstracted; a negative configured count, whose Python slice drops from
the end, is not modelled).  TTS enrichment is advisory and abstracted. -/
def get_current_question (interview : Interview) (response : Response)
    (genFirst : GenFirst) (genNext : GenNext)
    (genPredef : Except Unit (List Question)) :
    QResult × Interview × Response × Bool :=
  let questions := InterviewUtils.get_questions_list interview
  let idx := response.current_question_index
  if interview.question_mode = "dynamic" then
    match interview.question_count with
    | none => (.fatal, interview, response, false)
    | some max_questions =>
      if (idx : Int) ≥ max_questions then
        (.complete, interview, response, false)
      else if idx < questions.length then
        (serve_tail questions idx max_questions, interview, response, false)
      else
        let previous_answers := response.qa_history
        if previous_answers.length = 0 then
          match genFirst with
          | .raises => (.error, interview, response, true)
          | .retNone => (serve_tail questions idx max_questions, interview, response, true)
          | .retList [] => (serve_tail questions idx max_questions, interview, response, true)
          | .retList (q :: _) =>
            let interview := { interview with
              llm_generated_questions :=
                append_generated interview.llm_generated_questions (normalize_question q) }
            (serve_tail (InterviewUtils.get_questions_list interview) idx max_questions,
             interview, response, true)
          | .retSingle q =>
            let interview := { interview with
              llm_generated_questions :=
                append_generated interview.llm_generated_questions (normalize_question q) }
            (serve_tail (InterviewUtils.get_questions_list interview) idx max_questions,
             interview, response, true)
        else
          if (previous_answers.length : Int) < max_questions then
            match genNext with
            | .ok q =>
              let interview := { interview with
                llm_generated_questions :=
                  append_generated interview.llm_generated_questions (normalize_question q) }
              (serve_tail (InterviewUtils.get_questions_list interview) idx max_questions,
               interview, response, true)
            | _ => (.error, interview, response, true)
          else
            (.complete, interview, response, false)
  else
    let lazyGen :=
      if questions = [] ∧ interview.context ∧ interview.auto_question_generate then
        match genPredef with
        | .error _ => (interview, questions)
        | .ok gen_qs =>
          let final_questions :=
            match interview.question_count with
            | some n => gen_qs.take n.toNat
            | none => gen_qs
          let interview := { interview with
            llm_generated_questions := .jdict (some final_questions) }
          (interview, InterviewUtils.get_questions_list interview)
      else (interview, questions)
    let interview := lazyGen.1
    let questions := lazyGen.2
    if interview.question_mode = "predefined" then
      if questions.length > 0 ∧ questions.length ≤ idx then
        (.complete, interview, response, false)
      else if questions.length = 0 then
        (.error, interview, response, false)
      else
        (serve_tail questions idx (questions.length : Int), interview, response, false)
    else
      (serve_tail questions idx (questions.length : Int), interview, response, false)

end QuestionRouter

namespace SessionRouter

/-- The fields of the end-interview JSON reply that the verified logic
produces (timestamps are abstracted). -/
structure EndResult where
  ok : Bool
  questions_answered : Nat
  total_questions : Int
  is_partially_complete : Bool
deriving DecidableEq, Repr

/-- routers/session_router.end_interview on an already-fetched interview
and response.  `finalRes` is the awaited generate_final_analysis call;
end_time and duration stamping are abstracted. -/
def end_interview (interview : Interview) (response : Response)
    (finalRes : CollabResult FinalAnalysis) : Response × EndResult :=
  let response := { response with is_completed := true }
  let qa_history := response.qa_history
  let response :=
    if qa_history.length > 0 then
      match response.overall_analysis with
      | some _ => response
      | none =>
        if interview.context then
          match finalRes with
          | .raises => response
          | .ret fa =>
            let response := { response with overall_analysis := fa }
            match fa with
            | some f =>
              if ResponseRouter.status_unset response.status then
                { response with
                  status := some (ResponseRouter.derive_status (f.overall_score.getD 0)),
                  status_source := some "auto" }
              else response
            | none => response
        else response
    else response
  let total_questions : Int :=
    if interview.question_mode = "dynamic" then
      (interview.question_count).getD 0
    else
      ((InterviewUtils.get_questions_list interview).length : Int)
  let questions_answered : Nat := qa_history.length
  let is_partially_complete :=
    if total_questions > 0 then decide ((questions_answered : Int) < total_questions)
    else false
  (response,
   { ok := true
     questions_answered := questions_answered
     total_questions := total_questions
     is_partially_complete := is_partially_complete })

end SessionRouter

namespace InterviewSocket

/-- The per-session metadata hash written by the REST start endpoint and
read by the socket attach handler.  `sid = none` models the hash before a
connection identifier was bound into it. -/
structure SessionMeta where
  interview_id : String
  response_id : String
  mode : String
  session_token : String
  started_at : String
  sid : Option String
deriving DecidableEq, Repr

/-- One entry of the in-process `_sessions` map, keyed by connection id. -/
structure SessionBinding where
  session_id : String
  response_id : String
  interview_id : String
deriving DecidableEq, Repr

/-- The state touched by the attach handler: the in-process `_sessions`
map (keyed by connection id) and the external session-metadata store
(keyed by session id; `none` models an absent or empty hash). -/
structure SocketState where
  sessions : String → Option SessionBinding
  store : String → Option SessionMeta

/-- Outcome of the attach handler (the ack payload's echoed ids are
abstracted; room membership is advisory and abstracted). -/
inductive AttachResult where
  | accepted
  | rejected
deriving DecidableEq, Repr

/-- Python truthiness of an optional string field read with `data.get`:
a missing key and an empty string are both falsy. -/
def truthy (s : Option String) : Option String :=
  match s with
  | some v => if v = "" then none else some v
  | none => none

/-- sockets/interview_socket.start_interview: validates the presented
(session_id, response_id, session_token) triple against stored metadata
and only on success binds the connection id into `_sessions` and into the
stored metadata hash. -/
def start_interview (st : SocketState) (sid : String)
    (session_id response_id session_token : Option String) :
    AttachResult × SocketState :=
  match truthy session_id, truthy response_id, truthy session_token with
  | some sess, some resp, some tok =>
    match st.store sess with
    | none => (.rejected, st)
    | some meta =>
      if meta.response_id ≠ resp then (.rejected, st)
      else if meta.session_token ≠ tok then (.rejected, st)
      else
        let binding : SessionBinding :=
          { session_id := sess, response_id := resp, interview_id := meta.interview_id }
        (.accepted,
         { sessions := fun s => if s = sid then some binding else st.sessions s
           store := fun s => if s = sess then some { meta with sid := some sid } else st.store s })
  | _, _, _ => (.rejected, st)

end InterviewSocket

namespace AudioUtils

/-- An opaque byte string (one audio chunk, or a merged payload). -/
abbrev ByteStr := List Nat

/-- utils/audio_utils.merge_chunks: the empty buffer merges to the empty
byte string, otherwise the chunks are joined in order. -/
def merge_chunks (chunks : List ByteStr) : ByteStr :=
  if chunks = [] then [] else chunks.flatten

end AudioUtils

namespace SttService

/-- services/stt_service.STTService.transcribe_session on the ordered
chunk buffer returned by get_audio_chunks (redis rpush/lrange preserves
arrival order; an absent buffer reads back as the empty list).
`convert` is audio_utils.converted_audio_compatible and `transcribe` the
provider call; either may raise, modelled by `Except`. -/
def transcribe_session (chunks : List AudioUtils.ByteStr)
    (convert : AudioUtils.ByteStr → Except Unit AudioUtils.ByteStr)
    (transcribe : AudioUtils.ByteStr → Except Unit String) : Except Unit String :=
  if chunks = [] then .ok ""
  else
    match convert (AudioUtils.merge_chunks chunks) with
    | .error e => .error e
    | .ok audio_data => transcribe audio_data

end SttService

namespace SubmitRace

/-- The arguments of one submit_answer call (request fields and the
outcomes of its scoring collaborator calls). -/
structure SubmitCall where
  question : String
  transcript : String
  analyzeRes : CollabResult AnalysisData
  finalRes : CollabResult FinalAnalysis

/-- The response row as rewritten by one whole submit_answer transaction
computed from a given snapshot of that row. -/
def apply_submit (interview : Interview) (c : SubmitCall) (r : Response) : Response :=
  (ResponseRouter.submit_answer interview r c.question c.transcript c.analyzeRes c.finalRes).1

/-- State of the stored response row while two submit transactions are in
flight, together with the row snapshot each transaction has read. -/
structure RaceState where
  db : Response
  snap1 : Option Response
  snap2 : Option Response

/-- Atomic events of the two transactions: each transaction reads the row
once and later writes back the row it computed from its snapshot (the
ORM commit overwrites the row wholesale; submit_answer takes no row lock
and does no compare-and-set). -/
inductive Ev where
  | read1
  | read2
  | write1
  | write2

/-- One scheduler step of the two-transaction interleaving model. -/
def step (interview : Interview) (c1 c2 : SubmitCall) (s : RaceState) (e : Ev) : RaceState :=
  match e with
  | .read1 => { s with snap1 := some s.db }
  | .read2 => { s with snap2 := some s.db }
  | .write1 =>
    match s.snap1 with
    | some r => { s with db := apply_submit interview c1 r }
    | none => s
  | .write2 =>
    match s.snap2 with
    | some r => { s with db := apply_submit interview c2 r }
    | none => s

/-- Run a schedule of events from an initial row. -/
def run (interview : Interview) (c1 c2 : SubmitCall) (r0 : Response)
    (es : List Ev) : RaceState :=
  es.foldl (step interview c1 c2) { db := r0, snap1 := none, snap2 := none }

end SubmitRace

namespace ResponseRouter

/-- The analysis payload that submit_answer leaves on the appended pair:
empty unless the interview has context and the scoring call returned. -/
def analysis_value (interview : Interview) (ar : CollabResult AnalysisData) :
    Option AnalysisData :=
  if interview.context then
    match ar with
    | .raises => none
    | .ret x => x
  else none

/-- The completion condition submit_answer evaluates after incrementing
the index. -/
def completion_flag (interview : Interview) (response : Response) : Bool :=
  decide (total_questions interview ≤ response.current_question_index + 1 ∧
    0 < total_questions interview)

/-- The response mutations of submit_answer's completion block. -/
def complete_update (interview : Interview) (fr : CollabResult FinalAnalysis)
    (response : Response) : Response :=
  let response := { response with is_completed := true }
  if interview.context then
    match fr with
    | .raises => response
    | .ret fa =>
      let response := { response with overall_analysis := fa }
      match fa with
      | some f =>
        if status_unset response.status then
          { response with
            status := some (derive_status (f.overall_score.getD 0)),
            status_source := some "auto" }
        else response
      | none => response
  else response

lemma set_last_analysis_append (h : List QAPair) (p : QAPair) (x : Option AnalysisData) :
    set_last_analysis (h ++ [p]) x = h ++ [{ p with analysis := x }] := by
  induction h with
  | nil => rfl
  | cons a t ih =>
    cases t with
    | nil => simp [set_last_analysis]
    | cons b u => simpa [set_last_analysis] using ih

/-- Closed-form characterization of submit_answer, used by the claim
theorems below. -/
lemma submit_answer_eq (interview : Interview) (r : Response) (q a : String)
    (ar : CollabResult AnalysisData) (fr : CollabResult FinalAnalysis) :
    submit_answer interview r q a ar fr =
      (let hist := r.qa_history ++
        [{ question := q, answer := a, analysis := analysis_value interview ar }]
       let r1 : Response := { r with
         qa_history := hist,
         current_question_index := r.current_question_index + 1 }
       let flag := completion_flag interview r
       let r2 := if flag then complete_update interview fr r1 else r1
       (r2, { ok := true, complete := flag,
              question_number := r.current_question_index + 1,
              total_questions := total_questions interview,
              questions_answered := hist.length })) := by
  rcases fr with _ | ⟨_ | f⟩ <;>
    cases hc : interview.context <;> cases ar <;>
    by_cases hs : status_unset r.status = true <;>
    simp [submit_answer, complete_update, analysis_value, completion_flag, hc, hs,
      set_last_analysis_append] <;>
    by_cases hflag : total_questions interview ≤ r.current_question_index + 1 ∧
        0 < total_questions interview <;>
    simp [hflag, hs]

lemma complete_update_is_completed (i : Interview) (fr : CollabResult FinalAnalysis)
    (r : Response) : (complete_update i fr r).is_completed = true := by
  rcases fr with _ | ⟨_ | f⟩ <;> cases hc : i.context <;>
    by_cases hs : status_unset r.status = true <;> simp [complete_update, hc, hs]

lemma complete_update_qa_history (i : Interview) (fr : CollabResult FinalAnalysis)
    (r : Response) : (complete_update i fr r).qa_history = r.qa_history := by
  rcases fr with _ | ⟨_ | f⟩ <;> cases hc : i.context <;>
    by_cases hs : status_unset r.status = true <;> simp [complete_update, hc, hs]

lemma complete_update_index (i : Interview) (fr : CollabResult FinalAnalysis)
    (r : Response) :
    (complete_update i fr r).current_question_index = r.current_question_index := by
  rcases fr with _ | ⟨_ | f⟩ <;> cases hc : i.context <;>
    by_cases hs : status_unset r.status = true <;> simp [complete_update, hc, hs]

lemma complete_update_status_when_unset (i : Interview) (f : FinalAnalysis)
    (r : Response) (hc : i.context = true)
    (hs : r.status = none ∨ r.status = some .no_status) :
    (complete_update i (.ret (some f)) r).status =
        some (derive_status (f.overall_score.getD 0)) ∧
      (complete_update i (.ret (some f)) r).status_source = some "auto" := by
  have hs1 : status_unset r.status = true := by
    rcases hs with h | h <;> simp [status_unset, h]
  simp [complete_update, hc, hs1]

lemma complete_update_status_when_set (i : Interview)
    (fr : CollabResult FinalAnalysis) (r : Response) (s : Status)
    (hr : r.status = some s) (hne : s ≠ Status.no_status) :
    (complete_update i fr r).status = r.status ∧
      (complete_update i fr r).status_source = r.status_source := by
  have hs1 : status_unset r.status = false := by
    rw [hr]
    cases s
    case no_status => exact absurd rfl hne
    all_goals rfl
  rcases fr with _ | ⟨_ | f⟩ <;> cases hc : i.context <;>
    simp [complete_update, hc, hs1]

end ResponseRouter

/-- Claim C1: for every answer submission the completion flag returned, and
the completed marker stored on a not-yet-completed response, hold exactly
when the post-increment index is at least total_expected and
total_expected is positive, where total_expected is the configured
maximum in dynamic mode and the length of the resolved question list
otherwise; a total_expected of 0 never yields completion. -/
theorem c1_submit_completion_flag (interview : Interview) (response : Response)
    (q a : String) (ar : CollabResult AnalysisData) (fr : CollabResult FinalAnalysis)
    (hnc : response.is_completed = false) :
    let out := ResponseRouter.submit_answer interview response q a ar fr
    (out.2.complete = true ↔
      (ResponseRouter.total_questions interview ≤ response.current_question_index + 1 ∧
        0 < ResponseRouter.total_questions interview)) ∧
    out.1.is_completed = out.2.complete ∧
    (∀ n : Int, interview.question_mode = "dynamic" → interview.question_count = some n →
      0 < n → ResponseRouter.total_questions interview = n.toNat) ∧
    (interview.question_mode ≠ "dynamic" →
      ResponseRouter.total_questions interview =
        (InterviewUtils.get_questions_list interview).length) ∧
    (ResponseRouter.total_questions interview = 0 → out.2.complete = false) := by
  rw [ResponseRouter.submit_answer_eq]
  simp only []
  refine ⟨?_, ?_, ?_, ?_, ?_⟩
  · simp [ResponseRouter.completion_flag]
  · by_cases hflag : ResponseRouter.completion_flag interview response = true
    · simp [hflag, ResponseRouter.complete_update_is_completed]
    · simp at hflag
      simp [hflag, hnc]
  · intro n hmode hqc hpos
    have : ¬ n ≤ 0 := by omega
    simp [ResponseRouter.total_questions, hmode, hqc, this]
  · intro hmode
    simp [ResponseRouter.total_questions, hmode]
  · intro h0
    simp [ResponseRouter.completion_flag, h0]

/-- Claim C1 witness: a predefined interview with one resolved question and
a fresh response completes on its first submission. -/
theorem c1_submit_completion_flag_witness :
    let i0 : Interview :=
      { question_mode := "predefined", question_count := none,
        llm_generated_questions := .jlist ["q1"], manual_questions := .jnull,
        context := false, auto_question_generate := false }
    let r0 : Response :=
      { qa_history := [], current_question_index := 0, is_completed := false,
        status := none, status_source := none, overall_analysis := none }
    let out := ResponseRouter.submit_answer i0 r0 "q1" "ans" .raises .raises
    out.2.complete = true ∧ out.1.is_completed = true := by
  intro i0 r0 out
  have h := c1_submit_completion_flag i0 r0 "q1" "ans" .raises .raises rfl
  refine ⟨h.1.mpr (by decide), ?_⟩
  rw [h.2.1, h.1.mpr (by decide)]

/-- Claim C2: every successful submission appends exactly one qa pair and
increments the index by exactly one; the prior history is a preserved
prefix and the appended pair carries the request's question and answer,
its analysis being exactly what the scoring step produced (empty when
scoring was skipped or failed). -/
theorem c2_submit_appends_exactly_one (interview : Interview) (r : Response)
    (q a : String) (ar : CollabResult AnalysisData) (fr : CollabResult FinalAnalysis) :
    let out := ResponseRouter.submit_answer interview r q a ar fr
    out.1.qa_history.length = r.qa_history.length + 1 ∧
    out.1.qa_history.take r.qa_history.length = r.qa_history ∧
    out.1.current_question_index = r.current_question_index + 1 ∧
    out.1.qa_history =
      r.qa_history ++ [⟨q, a, ResponseRouter.analysis_value interview ar⟩] := by
  rw [ResponseRouter.submit_answer_eq]
  simp only []
  by_cases hflag : ResponseRouter.completion_flag interview r = true <;>
    simp [hflag, ResponseRouter.complete_update_qa_history,
      ResponseRouter.complete_update_index, List.take_append]

/-- Claim C8: on completion the categorical status derived from the
aggregate overall score follows the three-tier ladder (at least 80
selected, 60 to 79 potential, below 40 not selected, the 40 to 59 band
landing in the middle potential tier) and is assigned only when no
status was previously set; an already-set status survives the automatic
assignment.  The same ladder governs both the submit_answer completion
block and end_interview. -/
theorem c8_auto_status_tiers (interview : Interview) (r : Response) (q a : String)
    (ar : CollabResult AnalysisData) (f : FinalAnalysis)
    (hctx : interview.context = true)
    (hflag : ResponseRouter.completion_flag interview r = true) :
    let score := f.overall_score.getD 0
    let tier := ResponseRouter.derive_status score
    let sub := (ResponseRouter.submit_answer interview r q a ar (.ret (some f))).1
    ((r.status = none ∨ r.status = some .no_status) →
      sub.status = some tier ∧ sub.status_source = some "auto") ∧
    (∀ s : Status, r.status = some s → s ≠ Status.no_status →
      sub.status = r.status ∧ sub.status_source = r.status_source) ∧
    (80 ≤ score → tier = .selected) ∧
    (60 ≤ score → score < 80 → tier = .potential) ∧
    (score < 40 → tier = .not_selected) ∧
    (40 ≤ score → score < 60 → tier = .potential) ∧
    (r.qa_history ≠ [] → r.overall_analysis = none →
      let fin := (SessionRouter.end_interview interview r (.ret (some f))).1
      ((r.status = none ∨ r.status = some .no_status) → fin.status = some tier) ∧
      (∀ s : Status, r.status = some s → s ≠ Status.no_status →
        fin.status = r.status)) := by
  intro score tier
  have hsub :
      (ResponseRouter.submit_answer interview r q a ar (.ret (some f))).1 =
        ResponseRouter.complete_update interview (.ret (some f))
          { r with
            qa_history := r.qa_history ++
              [⟨q, a, ResponseRouter.analysis_value interview ar⟩],
            current_question_index := r.current_question_index + 1 } := by
    rw [ResponseRouter.submit_answer_eq]
    simp [hflag]
  refine ⟨?_, ?_, ?_, ?_, ?_, ?_, ?_⟩
  · intro hun
    rw [hsub]
    exact ResponseRouter.complete_update_status_when_unset interview f _ hctx hun
  · intro s hr hne
    rw [hsub]
    exact ResponseRouter.complete_update_status_when_set interview _ _ s hr hne
  · intro h80
    simp only [ResponseRouter.derive_status, tier]
    rw [if_pos (by omega)]
  · intro h60 h80
    simp only [ResponseRouter.derive_status, tier]
    rw [if_neg (by omega), if_pos (by omega)]
  · intro h40
    simp only [ResponseRouter.derive_status, tier]
    rw [if_neg (by omega), if_neg (by omega), if_pos (by omega)]
  · intro h40 h60
    simp only [ResponseRouter.derive_status, tier]
    rw [if_neg (by omega), if_neg (by omega), if_neg (by omega)]
  · intro hne hoa
    have hlen : 0 < r.qa_history.length := List.length_pos.mpr hne
    constructor
    · intro hun
      have hs1 : ResponseRouter.status_unset r.status = true := by
        rcases hun with h | h <;> simp [ResponseRouter.status_unset, h]
      simp [SessionRouter.end_interview, hlen, hoa, hctx, hs1]
    · intro s hr hne2
      have hs1 : ResponseRouter.status_unset r.status = false := by
        rw [hr]
        cases s
        case no_status => exact absurd rfl hne2
        all_goals rfl
      simp [SessionRouter.end_interview, hlen, hoa, hctx, hs1]

/-- Claim C8 witness: a completing submission with score 85 and no prior
status stores the selected status, while a manually set status survives
a score of 85. -/
theorem c8_auto_status_tiers_witness :
    let i0 : Interview :=
      { question_mode := "predefined", question_count := none,
        llm_generated_questions := .jlist ["q1"], manual_questions := .jnull,
        context := true, auto_question_generate := false }
    let r0 : Response :=
      { qa_history := [], current_question_index := 0, is_completed := false,
        status := none, status_source := none, overall_analysis := none }
    let r1 : Response := { r0 with status := some .rejected }
    ((ResponseRouter.submit_answer i0 r0 "q1" "ans" .raises
        (.ret (some ⟨some 85⟩))).1.status = some .selected) ∧
    ((ResponseRouter.submit_answer i0 r1 "q1" "ans" .raises
        (.ret (some ⟨some 85⟩))).1.status = some .rejected) := by
  intro i0 r0 r1
  constructor
  · have h := c8_auto_status_tiers i0 r0 "q1" "ans" .raises ⟨some 85⟩ rfl (by decide)
    have h1 := (h.1 (Or.inl rfl)).1
    have h80 := h.2.2.1 (by decide)
    rw [h1, h80]
  · have h := c8_auto_status_tiers i0 r1 "q1" "ans" .raises ⟨some 85⟩ rfl (by decide)
    have h1 := (h.2.1 .rejected rfl (by decide)).1
    rw [h1]

namespace QuestionRouter

lemma serve_tail_ne_complete (qs : List Question) (idx : Nat) (t : Int) :
    serve_tail qs idx t ≠ .complete := by
  simp only [serve_tail]
  split
  · split <;> simp
  · simp

lemma serve_tail_oob (qs : List Question) (idx : Nat) (t : Int)
    (h : ¬ idx < qs.length) : serve_tail qs idx t = .error := by
  unfold serve_tail
  rw [dif_neg h]

lemma serve_tail_in_range (qs : List Question) (idx : Nat) (t : Int)
    (h : idx < qs.length) :
    serve_tail qs idx t =
      if qs.get ⟨idx, h⟩ = "" then .error
      else .question (qs.get ⟨idx, h⟩) (idx + 1) t := by
  unfold serve_tail
  rw [dif_pos h]

end QuestionRouter

/-- Claim C3 counterexample: in predefined mode with zero materialized
questions, fetching at index 0 returns an error reply although 0 is at
least the list length (the claim demands the completion marker), and with
a falsy (empty) entry at the requested in-range position the fetch
returns an error reply rather than that entry. -/
theorem c3_counterexample :
    let r0 : Response :=
      { qa_history := [], current_question_index := 0, is_completed := false,
        status := none, status_source := none, overall_analysis := none }
    let iEmpty : Interview :=
      { question_mode := "predefined", question_count := some 3,
        llm_generated_questions := .jdict (some []), manual_questions := .jnull,
        context := false, auto_question_generate := false }
    let iFalsy : Interview :=
      { question_mode := "predefined", question_count := some 2,
        llm_generated_questions := .jlist ["", "q2"], manual_questions := .jnull,
        context := false, auto_question_generate := false }
    (QuestionRouter.get_current_question iEmpty r0 .raises .raises (.error ())).1 =
        .error ∧
    (QuestionRouter.get_current_question iFalsy r0 .raises .raises (.error ())).1 =
        .error := by
  decide

/-- Claim C3 (amended): in predefined mode with N materialized questions
where N is positive, fetching at progress index i returns the completion
marker exactly when i is at least N; for i below N the fetch returns the
entry at position i when that entry is truthy, and an error reply when
the entry is falsy. -/
theorem c3_predefined_next (i : Interview) (r : Response)
    (gf : QuestionRouter.GenFirst) (gn : QuestionRouter.GenNext)
    (gp : Except Unit (List Question))
    (hmode : i.question_mode = "predefined")
    (hne : InterviewUtils.get_questions_list i ≠ []) :
    let qs := InterviewUtils.get_questions_list i
    let out := QuestionRouter.get_current_question i r gf gn gp
    (out.1 = .complete ↔ qs.length ≤ r.current_question_index) ∧
    (∀ h : r.current_question_index < qs.length,
      out.1 = if qs.get ⟨r.current_question_index, h⟩ = "" then .error
        else .question (qs.get ⟨r.current_question_index, h⟩)
          (r.current_question_index + 1) (qs.length : Int)) := by
  intro qs out
  have hmd : ¬ (i.question_mode = "dynamic") := by rw [hmode]; decide
  have hlen : 0 < qs.length := List.length_pos.mpr hne
  have hout : out = (if qs.length > 0 ∧ qs.length ≤ r.current_question_index
      then (.complete, i, r, false)
      else if qs.length = 0 then (.error, i, r, false)
      else (QuestionRouter.serve_tail qs r.current_question_index (qs.length : Int),
        i, r, false)) := by
    show QuestionRouter.get_current_question i r gf gn gp = _
    simp only [QuestionRouter.get_current_question, hmd, hmode, if_false, if_neg hmd]
    simp [hne, hmode]
  by_cases hidx : qs.length ≤ r.current_question_index
  · rw [hout, if_pos ⟨hlen, hidx⟩]
    refine ⟨by simp [hidx], ?_⟩
    intro h
    omega
  · rw [hout, if_neg (by omega), if_neg (by omega)]
    refine ⟨?_, ?_⟩
    · simp only []
      constructor
      · intro hc
        exact absurd hc (QuestionRouter.serve_tail_ne_complete qs _ _)
      · intro hc
        omega
    · intro h
      exact QuestionRouter.serve_tail_in_range qs _ _ h

/-- Claim C3 witness: with two materialized questions, index 0 serves the
first question and index 5 yields the completion marker. -/
theorem c3_predefined_next_witness :
    let i0 : Interview :=
      { question_mode := "predefined", question_count := none,
        llm_generated_questions := .jlist ["q1", "q2"], manual_questions := .jnull,
        context := false, auto_question_generate := false }
    let r0 : Response :=
      { qa_history := [], current_question_index := 0, is_completed := false,
        status := none, status_source := none, overall_analysis := none }
    let r5 : Response := { r0 with current_question_index := 5 }
    (QuestionRouter.get_current_question i0 r0 .raises .raises (.error ())).1 =
        .question "q1" 1 2 ∧
    (QuestionRouter.get_current_question i0 r5 .raises .raises (.error ())).1 =
        .complete := by
  intro i0 r0 r5
  constructor
  · have h := (c3_predefined_next i0 r0 .raises .raises (.error ()) rfl
      (by decide)).2 (by decide)
    rw [h]
    decide
  · exact (c3_predefined_next i0 r5 .raises .raises (.error ()) rfl
      (by decide)).1.mpr (by decide)

/-- Claim C4: in dynamic mode with configured maximum M, a fetch at a
progress index at or beyond M returns the completion marker without
invoking any generation collaborator, and a fetch at index exactly M
always returns the completion marker. -/
theorem c4_dynamic_no_generation_beyond_max (i : Interview) (r : Response)
    (gf : QuestionRouter.GenFirst) (gn : QuestionRouter.GenNext)
    (gp : Except Unit (List Question)) (M : Int)
    (hmode : i.question_mode = "dynamic")
    (hqc : i.question_count = some M) :
    let out := QuestionRouter.get_current_question i r gf gn gp
    (M ≤ (r.current_question_index : Int) →
      out.1 = .complete ∧ out.2.2.2 = false) ∧
    ((r.current_question_index : Int) = M → out.1 = .complete) := by
  intro out
  have key : M ≤ (r.current_question_index : Int) →
      out = (.complete, i, r, false) := by
    intro h
    show QuestionRouter.get_current_question i r gf gn gp = _
    simp [QuestionRouter.get_current_question, hmode, hqc, h]
  refine ⟨fun h => ?_, fun h => ?_⟩
  · rw [key h]
    exact ⟨rfl, rfl⟩
  · rw [key (le_of_eq h.symm)]

/-- Claim C4 witness: a dynamic interview with maximum 2 and a response at
index 2 gets the completion marker and no generation call. -/
theorem c4_dynamic_no_generation_beyond_max_witness :
    let i0 : Interview :=
      { question_mode := "dynamic", question_count := some 2,
        llm_generated_questions := .jnull, manual_questions := .jnull,
        context := true, auto_question_generate := true }
    let r2 : Response :=
      { qa_history := [⟨"q1", "a1", none⟩, ⟨"q2", "a2", none⟩],
        current_question_index := 2, is_completed := false,
        status := none, status_source := none, overall_analysis := none }
    let out := QuestionRouter.get_current_question i0 r2 .raises .raises (.error ())
    out.1 = .complete ∧ out.2.2.2 = false := by
  intro i0 r2 out
  exact (c4_dynamic_no_generation_beyond_max i0 r2 .raises .raises (.error ()) 2
    rfl rfl).1 (by decide)

/-- Claim C6: in dynamic mode, when the invoked generation collaborator
raises or returns nothing usable, the stored question set (and the whole
interview record) is left unchanged, the response (and so its progress
index) is untouched, and whenever a generation collaborator was invoked
the caller receives an error reply rather than a question. -/
theorem c6_generation_failure_preserves (i : Interview) (r : Response)
    (gf : QuestionRouter.GenFirst) (gn : QuestionRouter.GenNext)
    (gp : Except Unit (List Question))
    (hmode : i.question_mode = "dynamic")
    (hgf : gf = .raises ∨ gf = .retNone ∨ gf = .retList [])
    (hgn : ∀ q, gn ≠ .ok q) :
    let out := QuestionRouter.get_current_question i r gf gn gp
    out.2.1 = i ∧ out.2.2.1 = r ∧ (out.2.2.2 = true → out.1 = .error) := by
  intro out
  cases hqc : i.question_count with
  | none =>
    have hout : out = (.fatal, i, r, false) := by
      show QuestionRouter.get_current_question i r gf gn gp = _
      simp [QuestionRouter.get_current_question, hmode, hqc]
    rw [hout]
    exact ⟨rfl, rfl, by simp⟩
  | some M =>
    by_cases h1 : M ≤ (r.current_question_index : Int)
    · have hout : out = (.complete, i, r, false) := by
        show QuestionRouter.get_current_question i r gf gn gp = _
        simp [QuestionRouter.get_current_question, hmode, hqc, h1]
      rw [hout]
      exact ⟨rfl, rfl, by simp⟩
    · by_cases h2 : r.current_question_index <
          (InterviewUtils.get_questions_list i).length
      · have hout : out = (QuestionRouter.serve_tail
            (InterviewUtils.get_questions_list i) r.current_question_index M,
            i, r, false) := by
          show QuestionRouter.get_current_question i r gf gn gp = _
          simp [QuestionRouter.get_current_question, hmode, hqc, h1, h2]
        rw [hout]
        exact ⟨rfl, rfl, by simp⟩
      · by_cases h3 : r.qa_history.length = 0
        · have hserve : QuestionRouter.serve_tail
              (InterviewUtils.get_questions_list i) r.current_question_index M =
              .error := QuestionRouter.serve_tail_oob _ _ _ h2
          rcases hgf with h | h | h <;> subst h
          · have hout : out = (.error, i, r, true) := by
              show QuestionRouter.get_current_question i r .raises gn gp = _
              simp [QuestionRouter.get_current_question, hmode, hqc, h1, h2, h3]
            rw [hout]
            exact ⟨rfl, rfl, fun _ => rfl⟩
          · have hout : out = (QuestionRouter.serve_tail
                (InterviewUtils.get_questions_list i) r.current_question_index M,
                i, r, true) := by
              show QuestionRouter.get_current_question i r .retNone gn gp = _
              simp [QuestionRouter.get_current_question, hmode, hqc, h1, h2, h3]
            rw [hout]
            exact ⟨rfl, rfl, fun _ => hserve⟩
          · have hout : out = (QuestionRouter.serve_tail
                (InterviewUtils.get_questions_list i) r.current_question_index M,
                i, r, true) := by
              show QuestionRouter.get_current_question i r (.retList []) gn gp = _
              simp [QuestionRouter.get_current_question, hmode, hqc, h1, h2, h3]
            rw [hout]
            exact ⟨rfl, rfl, fun _ => hserve⟩
        · by_cases h4 : (r.qa_history.length : Int) < M
          · rcases hgn2 : gn with _ | _ | _ | q
            · have hout : out = (.error, i, r, true) := by
                show QuestionRouter.get_current_question i r gf gn gp = _
                simp [QuestionRouter.get_current_question, hmode, hqc, h1, h2,
                  h3, h4, hgn2]
              rw [hout]
              exact ⟨rfl, rfl, fun _ => rfl⟩
            · have hout : out = (.error, i, r, true) := by
                show QuestionRouter.get_current_question i r gf gn gp = _
                simp [QuestionRouter.get_current_question, hmode, hqc, h1, h2,
                  h3, h4, hgn2]
              rw [hout]
              exact ⟨rfl, rfl, fun _ => rfl⟩
            · have hout : out = (.error, i, r, true) := by
                show QuestionRouter.get_current_question i r gf gn gp = _
                simp [QuestionRouter.get_current_question, hmode, hqc, h1, h2,
                  h3, h4, hgn2]
              rw [hout]
              exact ⟨rfl, rfl, fun _ => rfl⟩
            · exact absurd hgn2 (hgn q)
          · have hout : out = (.complete, i, r, false) := by
              show QuestionRouter.get_current_question i r gf gn gp = _
              simp [QuestionRouter.get_current_question, hmode, hqc, h1, h2, h3, h4]
            rw [hout]
            exact ⟨rfl, rfl, by simp⟩

/-- Claim C6 witness: a raising opening-question generation in dynamic
mode yields an error reply and leaves the interview and response
unchanged. -/
theorem c6_generation_failure_preserves_witness :
    let i0 : Interview :=
      { question_mode := "dynamic", question_count := some 3,
        llm_generated_questions := .jnull, manual_questions := .jnull,
        context := true, auto_question_generate := true }
    let r0 : Response :=
      { qa_history := [], current_question_index := 0, is_completed := false,
        status := none, status_source := none, overall_analysis := none }
    let out := QuestionRouter.get_current_question i0 r0 .raises .falsy (.error ())
    out.2.1 = i0 ∧ out.2.2.1 = r0 ∧ out.1 = .error := by
  intro i0 r0 out
  have h := c6_generation_failure_preserves i0 r0 .raises .falsy (.error ())
    rfl (Or.inl rfl) (by intro q h; cases h)
  refine ⟨h.1, h.2.1, h.2.2 ?_⟩
  decide

/-- Claim C7: an attach whose session has no stored metadata, or whose
presented response id or session token does not match the stored
metadata, is rejected, and in that case neither the in-process session
map nor the stored metadata is modified. -/
theorem c7_attach_mismatch_rejected (st : InterviewSocket.SocketState)
    (sid : String) (a b c : Option String)
    (h : ∀ sess resp tok,
      InterviewSocket.truthy a = some sess →
      InterviewSocket.truthy b = some resp →
      InterviewSocket.truthy c = some tok →
      match st.store sess with
      | none => True
      | some meta => meta.response_id ≠ resp ∨ meta.session_token ≠ tok) :
    InterviewSocket.start_interview st sid a b c = (.rejected, st) := by
  cases ha : InterviewSocket.truthy a with
  | none =>
    cases hb : InterviewSocket.truthy b <;> cases hc : InterviewSocket.truthy c <;>
      simp [InterviewSocket.start_interview, ha, hb, hc]
  | some sess =>
    cases hb : InterviewSocket.truthy b with
    | none =>
      cases hc : InterviewSocket.truthy c <;>
        simp [InterviewSocket.start_interview, ha, hb, hc]
    | some resp =>
      cases hc : InterviewSocket.truthy c with
      | none => simp [InterviewSocket.start_interview, ha, hb, hc]
      | some tok =>
        have hm := h sess resp tok ha hb hc
        cases hst : st.store sess with
        | none => simp [InterviewSocket.start_interview, ha, hb, hc, hst]
        | some meta =>
          rw [hst] at hm
          rcases hm with hm | hm
          · simp [InterviewSocket.start_interview, ha, hb, hc, hst, hm]
          · by_cases hr : meta.response_id = resp
            · simp [InterviewSocket.start_interview, ha, hb, hc, hst, hr, hm]
            · simp [InterviewSocket.start_interview, ha, hb, hc, hst, hr]

/-- Claim C7 witness: a stored session with token tok rejects an attach
presenting token bad and leaves the socket state untouched. -/
theorem c7_attach_mismatch_rejected_witness :
    let meta0 : InterviewSocket.SessionMeta :=
      { interview_id := "1", response_id := "2", mode := "predefined",
        session_token := "tok", started_at := "t0", sid := none }
    let st0 : InterviewSocket.SocketState :=
      { sessions := fun _ => none,
        store := fun s => if s = "ws_1_2" then some meta0 else none }
    InterviewSocket.start_interview st0 "conn7"
      (some "ws_1_2") (some "2") (some "bad") = (.rejected, st0) := by
  intro meta0 st0
  apply c7_attach_mismatch_rejected
  intro sess resp tok hs hr ht
  simp only [InterviewSocket.truthy] at hs hr ht
  rw [if_neg (by decide)] at hs
  rw [if_neg (by decide)] at hr
  rw [if_neg (by decide)] at ht
  cases hs
  cases hr
  cases ht
  simp only [st0, meta0]
  simp

/-- Claim C9: transcribing a session with zero buffered chunks returns the
empty string and never an error, and when chunks exist they are first
concatenated in arrival order into one payload which is handed to
normalization. -/
theorem c9_transcribe_empty_and_order (chunks : List AudioUtils.ByteStr)
    (convert : AudioUtils.ByteStr → Except Unit AudioUtils.ByteStr)
    (transcribe : AudioUtils.ByteStr → Except Unit String) :
    SttService.transcribe_session [] convert transcribe = .ok "" ∧
    AudioUtils.merge_chunks chunks = chunks.flatten ∧
    (chunks ≠ [] →
      SttService.transcribe_session chunks convert transcribe =
        match convert chunks.flatten with
        | .error e => .error e
        | .ok audio => transcribe audio) := by
  refine ⟨rfl, ?_, ?_⟩
  · unfold AudioUtils.merge_chunks
    split
    · simp_all
    · rfl
  · intro hne
    unfold SttService.transcribe_session
    rw [if_neg hne]
    unfold AudioUtils.merge_chunks
    rw [if_neg hne]

/-- Claim C9 witness: chunks a, b, c merge to the payload abc before
normalization and transcription. -/
theorem c9_transcribe_empty_and_order_witness :
    SttService.transcribe_session [[10], [11], [12]] Except.ok
      (fun payload => .ok (toString payload.length)) = .ok "3" ∧
    AudioUtils.merge_chunks [[10], [11], [12]] = [10, 11, 12] := by
  have h := c9_transcribe_empty_and_order [[10], [11], [12]] Except.ok
    (fun payload => .ok (toString payload.length))
  have h3 := h.2.2 (by decide)
  constructor
  · rw [h3]
    rfl
  · rw [h.2.1]
    rfl

/-- Claim C10: get_questions_list is total over every shape of the stored
question fields and applies a fixed precedence: a non-empty
llm-generated collection is used, otherwise the manual questions
resolve (a manual dict without a questions key and every other shape
giving the empty list). -/
theorem c10_get_questions_list_precedence (interview : Interview) :
    InterviewUtils.get_questions_list interview =
      (match interview.llm_generated_questions with
       | .jlist (q :: qs) => some (q :: qs)
       | .jdict (some (q :: qs)) => some (q :: qs)
       | _ => none).getD
        (match interview.manual_questions with
         | .jlist qs => qs
         | .jdict (some qs) => qs
         | _ => []) := by
  unfold InterviewUtils.get_questions_list InterviewUtils.get_questions_list.manual_fallback
  rcases interview.llm_generated_questions with _ | ⟨_ | qs⟩ | ⟨_ | ⟨_ | qs⟩⟩ | _ <;>
    rcases interview.manual_questions with _ | qs2 | ⟨_ | qs2⟩ | _ <;>
    simp

/-- Claim C5 evaluation: submit_answer takes no per-response lock and does
no compare-and-set, so the interleaving read1 read2 write1 write2 of two
concurrent submissions for one response is possible; both transactions
then read pre-increment index 0, the first append is overwritten, and
the history grows by one entry overall, while the serialized schedule
grows it by two. -/
theorem c5_concurrent_submit_lost_update :
    let i0 : Interview :=
      { question_mode := "predefined", question_count := some 5,
        llm_generated_questions := .jlist ["q1", "q2", "q3"],
        manual_questions := .jnull, context := false,
        auto_question_generate := false }
    let r0 : Response :=
      { qa_history := [], current_question_index := 0, is_completed := false,
        status := none, status_source := none, overall_analysis := none }
    let s1 : SubmitRace.SubmitCall :=
      { question := "q1", transcript := "answer one", analyzeRes := .raises,
        finalRes := .raises }
    let s2 : SubmitRace.SubmitCall :=
      { question := "q1", transcript := "answer two", analyzeRes := .raises,
        finalRes := .raises }
    let racy := SubmitRace.run i0 s1 s2 r0 [.read1, .read2, .write1, .write2]
    let serial := SubmitRace.run i0 s1 s2 r0 [.read1, .write1, .read2, .write2]
    racy.snap1 = some r0 ∧ racy.snap2 = some r0 ∧
    racy.db.qa_history.length = 1 ∧ racy.db.current_question_index = 1 ∧
    serial.db.qa_history.length = 2 ∧ serial.db.current_question_index = 2 := by
  decide
